import Mathlib

/-!
# Tab widget (`script.js`): embedding and verified properties

The script discovers tab groups in a host document, validates each group's
shape and binds one click responder per button.  The host document is the only
collaborator; it is used through pattern lookup (`querySelector`,
`querySelectorAll`), class-token membership (`classList`), click-listener
registration (`addEventListener`) and the warning console.

The embedding threads an explicit `World` (class tokens of every node, the
click-listener table, the console) through every method.  A JavaScript
`TypeError` is the `Except.error` outcome.
-/

namespace TabScript

/-! ## Host document -/

/-- A reference to a DOM element. -/
abbrev Node := Nat

/-- The lookup side of the host document: the three pattern queries the script
issues.  `querySelector` yields `none` for JavaScript `null`; a `NodeList` is a
list of node references in document order.  The script issues its queries only
while initialising, when it adds or removes no class and no node, so the answers
are a fixed function of the page. -/
structure Document where
  /-- Models `document.querySelectorAll(selector)`. -/
  querySelectorAll : String → List Node
  /-- Models `element.querySelector(selector)`. -/
  elementQuerySelector : Node → String → Option Node
  /-- Models `element.querySelectorAll(selector)`. -/
  elementQuerySelectorAll : Node → String → List Node

/-- Models `classList.contains(token)`. -/
def DOMTokenList.contains (tokens : List String) (token : String) : Bool :=
  tokens.contains token

/-- Models `classList.add(token)`: the token is appended unless already present. -/
def DOMTokenList.add (tokens : List String) (token : String) : List String :=
  if tokens.contains token then tokens else tokens ++ [token]

/-- Models `classList.remove(token)`: the token is dropped from the token set. -/
def DOMTokenList.remove (tokens : List String) (token : String) : List String :=
  tokens.filter (fun t => t != token)

/-- Instance state of a `TabButton` (lines 232-260).  `none` in `_button` or
`_content` stands for `undefined`.  The bound handler `_isActiveHandler` is the
method `_isActive` with this object as receiver, so a registered listener is
represented by the object itself. -/
structure TabButton where
  _button : Option Node
  _content : Option Node
  _buttonList : List Node
  _contentList : List Node
deriving DecidableEq, Repr

/-- Mutable state of the page as the script can observe or change it. -/
@[ext]
structure World where
  /-- The class tokens of every node. -/
  classList : Node → List String
  /-- Click listeners in registration order: the target node and the receiver
  of the bound `_isActive`. -/
  listeners : List (Node × TabButton)
  /-- Messages passed to `console.warn`, oldest first. -/
  console : List String

/-- Replaces the class tokens of one node. -/
def World.setClassList (w : World) (n : Node) (tokens : List String) : World :=
  { w with classList := fun m => if m = n then tokens else w.classList m }

/-- Models `node.classList.add(token)`. -/
def World.classListAdd (w : World) (n : Node) (token : String) : World :=
  w.setClassList n (DOMTokenList.add (w.classList n) token)

/-- Models `node.classList.remove(token)`. -/
def World.classListRemove (w : World) (n : Node) (token : String) : World :=
  w.setClassList n (DOMTokenList.remove (w.classList n) token)

/-- Models `console.warn(message)`. -/
def World.warn (w : World) (message : String) : World :=
  { w with console := w.console ++ [message] }

/-- Models `node.addEventListener('click', handler)` for the bound handler of `receiver`. -/
def World.addEventListener (w : World) (n : Node) (receiver : TabButton) : World :=
  { w with listeners := w.listeners ++ [(n, receiver)] }

/-- The message of the `TypeError` raised when a property of `undefined` is read. -/
def typeError : String := "TypeError: cannot read properties of undefined"

/-! ## `TabButton` (lines 227-325) -/

/-- Models `TabButton.CLASS.BUTTON_ACTIVE`. -/
def TabButton.CLASS.BUTTON_ACTIVE : String := "tab-button--active"

/-- Models `TabButton.CLASS.CONTENT_ACTIVE`. -/
def TabButton.CLASS.CONTENT_ACTIVE : String := "tab-content--active"

/-- One pass of the `forEach` bodies of `_reset` (lines 298-308): every item
that contains the token has it removed. -/
def TabButton.resetList (items : List Node) (token : String) (w : World) : World :=
  items.foldl
    (fun w item =>
      if DOMTokenList.contains (w.classList item) token then
        w.classListRemove item token
      else w)
    w

/-- Models `TabButton._reset` (lines 296-309): the button list first, then the content list. -/
def TabButton._reset (self : TabButton) (w : World) : World :=
  TabButton.resetList self._contentList TabButton.CLASS.CONTENT_ACTIVE
    (TabButton.resetList self._buttonList TabButton.CLASS.BUTTON_ACTIVE w)

/-- Models `TabButton._isActive` (lines 314-319), the click responder. -/
def TabButton._isActive (self : TabButton) (w : World) : Except String World :=
  let w1 := self._reset w
  match self._button with
  | none => .error typeError
  | some button =>
    let w2 := w1.classListAdd button TabButton.CLASS.BUTTON_ACTIVE
    match self._content with
    | none => .error typeError
    | some content => .ok (w2.classListAdd content TabButton.CLASS.CONTENT_ACTIVE)

/-- Models `TabButton._addEventListener` (lines 321-323). -/
def TabButton._addEventListener (self : TabButton) (w : World) : Except String World :=
  match self._button with
  | none => .error typeError
  | some button => .ok (w.addEventListener button self)

/-- Models `new TabButton().init(button, content, contentList, buttonList)` (lines 280-291). -/
def TabButton.init (button content : Option Node) (contentList buttonList : List Node)
    (w : World) : Except String World :=
  let self : TabButton :=
    { _button := button, _content := content,
      _buttonList := buttonList, _contentList := contentList }
  self._addEventListener w

/-! ## `SingleTabLoader` (lines 68-222) -/

/-- Instance state of a `SingleTabLoader` (lines 73-104). -/
structure SingleTabLoader where
  _mainTabElement : Option Node
  _tabBar : Option Node
  _parentHiddenContent : Option Node
  _tabButtonList : List Node
  _tabContentList : List Node

/-- Models `SingleTabLoader.CLASS.TAB_BAR_ELEMENT`. -/
def SingleTabLoader.CLASS.TAB_BAR_ELEMENT : String := ".tab-button-bar"

/-- Models `SingleTabLoader.CLASS.PARENT_HIDEN_CONTENT`. -/
def SingleTabLoader.CLASS.PARENT_HIDEN_CONTENT : String := ".tab-hidden-content"

/-- Models `SingleTabLoader.CLASS.TAB_BUTTON`. -/
def SingleTabLoader.CLASS.TAB_BUTTON : String := ".tab-button"

/-- Models `SingleTabLoader.CLASS.HIDDEN_CONTENT`. -/
def SingleTabLoader.CLASS.HIDDEN_CONTENT : String := ".tab-content"

/-- Models `SingleTabLoader.ERROR.ERROR_MESSAGE`. -/
def SingleTabLoader.ERROR.ERROR_MESSAGE : String := "Tab class was not initialised correctly."

/-- Models `SingleTabLoader._loadTabButton` (lines 206-220): the index loop
over the button list; `list[i]` out of range is `undefined`. -/
def SingleTabLoader._loadTabButton (self : SingleTabLoader) (w : World) : Except String World :=
  (List.range self._tabButtonList.length).foldlM
    (fun w i =>
      TabButton.init self._tabButtonList[i]? self._tabContentList[i]?
        self._tabContentList self._tabButtonList w)
    w

/-- Models `new SingleTabLoader().init(mainElement)` (lines 133-201). -/
def SingleTabLoader.init (doc : Document) (mainElement : Option Node) (w : World) :
    Except String World :=
  match mainElement with
  | none =>
    .ok (w.warn (SingleTabLoader.ERROR.ERROR_MESSAGE ++ "Main Element not found."))
  | some main =>
    match doc.elementQuerySelector main SingleTabLoader.CLASS.TAB_BAR_ELEMENT with
    | none =>
      .ok (w.warn (SingleTabLoader.ERROR.ERROR_MESSAGE ++ "Tab bar element not Found."))
    | some tabBar =>
      match doc.elementQuerySelector main SingleTabLoader.CLASS.PARENT_HIDEN_CONTENT with
      | none =>
        .ok (w.warn (SingleTabLoader.ERROR.ERROR_MESSAGE ++ "Hidden content element not Found."))
      | some parentHiddenContent =>
        let tabButtonList := doc.elementQuerySelectorAll tabBar SingleTabLoader.CLASS.TAB_BUTTON
        if tabButtonList.length == 0 then
          .ok (w.warn (SingleTabLoader.ERROR.ERROR_MESSAGE ++ " List of buttons is empty."))
        else
          let tabContentList :=
            doc.elementQuerySelectorAll parentHiddenContent SingleTabLoader.CLASS.HIDDEN_CONTENT
          if tabContentList.length == 0 then
            .ok (w.warn (SingleTabLoader.ERROR.ERROR_MESSAGE ++ " List of content is empty."))
          else if tabButtonList.length != tabContentList.length then
            .ok (w.warn (SingleTabLoader.ERROR.ERROR_MESSAGE ++
              "Missing elements in buttons or content list"))
          else
            SingleTabLoader._loadTabButton
              { _mainTabElement := some main, _tabBar := some tabBar,
                _parentHiddenContent := some parentHiddenContent,
                _tabButtonList := tabButtonList, _tabContentList := tabContentList }
              w

/-! ## `TabLoader` (lines 4-63) -/

/-- Instance state of a `TabLoader`: the node list found by the constructor. -/
structure TabLoader where
  _mainTabElement : List Node

/-- Models `TabLoader.CLASS.MAIN_TAB_ELEMENT`. -/
def TabLoader.CLASS.MAIN_TAB_ELEMENT : String := ".tab-element"

/-- Models `TabLoader.ERROR.ERROR_MESSAGE`. -/
def TabLoader.ERROR.ERROR_MESSAGE : String :=
  "No valid Main Tab elements found. Tab loader failed to iniatilize"

/-- Models the constructor of `TabLoader` (lines 8-15). -/
def TabLoader.new (doc : Document) : TabLoader :=
  { _mainTabElement := doc.querySelectorAll TabLoader.CLASS.MAIN_TAB_ELEMENT }

/-- JavaScript truthiness of a `NodeList` value: a `NodeList` is an object, and
every object converts to `true`, whatever its length. -/
def NodeList.toBoolean (_nodes : List Node) : Bool := true

/-- Models `TabLoader._loadSingleTabLoader` (lines 54-61). -/
def TabLoader._loadSingleTabLoader (doc : Document) (self : TabLoader) (w : World) :
    Except String World :=
  self._mainTabElement.foldlM (fun w item => SingleTabLoader.init doc (some item) w) w

/-- Models `TabLoader.init` (lines 40-49). -/
def TabLoader.init (doc : Document) (self : TabLoader) (w : World) : Except String World :=
  if !NodeList.toBoolean self._mainTabElement then
    .ok (w.warn TabLoader.ERROR.ERROR_MESSAGE)
  else
    TabLoader._loadSingleTabLoader doc self w

/-- Models the top-level statement `new TabLoader().init()` (line 327). -/
def loadScript (doc : Document) (w : World) : Except String World :=
  TabLoader.init doc (TabLoader.new doc) w

/-! ## Derived notions used to state the properties -/

/-- A page state with no class token, no listener and an empty console. -/
def World.blank : World := { classList := fun _ => [], listeners := [], console := [] }

/-- The button sequence `init` reads for a container: the `.tab-button` matches
inside the first `.tab-button-bar` match (lines 142-169); empty when there is no bar. -/
def groupButtons (doc : Document) (main : Node) : List Node :=
  match doc.elementQuerySelector main SingleTabLoader.CLASS.TAB_BAR_ELEMENT with
  | none => []
  | some tabBar => doc.elementQuerySelectorAll tabBar SingleTabLoader.CLASS.TAB_BUTTON

/-- The panel sequence `init` reads for a container: the `.tab-content` matches
inside the first `.tab-hidden-content` match (lines 155-181); empty when there is no wrapper. -/
def groupPanels (doc : Document) (main : Node) : List Node :=
  match doc.elementQuerySelector main SingleTabLoader.CLASS.PARENT_HIDEN_CONTENT with
  | none => []
  | some parentHiddenContent =>
    doc.elementQuerySelectorAll parentHiddenContent SingleTabLoader.CLASS.HIDDEN_CONTENT

/-- The receiver `_loadTabButton` builds at index `i` (lines 210-217). -/
def bindingAt (buttons panels : List Node) (i : Nat) : TabButton :=
  { _button := buttons[i]?, _content := panels[i]?,
    _buttonList := buttons, _contentList := panels }

/-- The listener entries `_loadTabButton` registers for the given sequences, in order. -/
def loadedListeners (buttons panels : List Node) (count : Nat) : List (Node × TabButton) :=
  (List.range count).filterMap
    (fun i => (buttons[i]?).map (fun b => (b, bindingAt buttons panels i)))

/-- The listener entries a run of `SingleTabLoader.init` on one container
registers, observed from a page with an empty listener table. -/
def SingleTabLoader.bindings (doc : Document) (mainElement : Option Node) :
    List (Node × TabButton) :=
  match SingleTabLoader.init doc mainElement World.blank with
  | .ok w => w.listeners
  | .error _ => []

/-- The class tokens of node `n` after the responder of a receiver with own
button `b`, own panel `c` and the given sibling lists has run on `tokens`:
the closed form of `_reset` followed by the two `classList.add` calls. -/
def tokensAfter (buttons panels : List Node) (b c n : Node) (tokens : List String) :
    List String :=
  let t1 := if n ∈ buttons then DOMTokenList.remove tokens TabButton.CLASS.BUTTON_ACTIVE
    else tokens
  let t2 := if n ∈ panels then DOMTokenList.remove t1 TabButton.CLASS.CONTENT_ACTIVE else t1
  let t3 := if n = b then DOMTokenList.add t2 TabButton.CLASS.BUTTON_ACTIVE else t2
  if n = c then DOMTokenList.add t3 TabButton.CLASS.CONTENT_ACTIVE else t3

/-- The warnings a run of `SingleTabLoader.init` on one container logs,
observed from a page with an empty console. -/
def SingleTabLoader.warnings (doc : Document) (mainElement : Option Node) : List String :=
  match SingleTabLoader.init doc mainElement World.blank with
  | .ok w => w.console
  | .error _ => []

/-- The button sequence of a candidate container; a `null` candidate has none. -/
def candidateButtons (doc : Document) (mainElement : Option Node) : List Node :=
  match mainElement with
  | none => []
  | some main => groupButtons doc main

/-- The panel sequence of a candidate container; a `null` candidate has none. -/
def candidatePanels (doc : Document) (mainElement : Option Node) : List Node :=
  match mainElement with
  | none => []
  | some main => groupPanels doc main

/-- Whether structural check number `k` of the specification's list fails on a
candidate container: (1) container non-null, (2) bar region present, (3)
hidden-content region present, (4) at least one button, (5) at least one panel,
(6) button count equals panel count.  Numbers outside 1..6 name no check. -/
def checkFails (doc : Document) (mainElement : Option Node) (k : Nat) : Bool :=
  match k with
  | 1 => mainElement.isNone
  | 2 => (mainElement.bind
      (fun main => doc.elementQuerySelector main SingleTabLoader.CLASS.TAB_BAR_ELEMENT)).isNone
  | 3 => (mainElement.bind
      (fun main => doc.elementQuerySelector main SingleTabLoader.CLASS.PARENT_HIDEN_CONTENT)).isNone
  | 4 => (candidateButtons doc mainElement).isEmpty
  | 5 => (candidatePanels doc mainElement).isEmpty
  | 6 => (candidateButtons doc mainElement).length != (candidatePanels doc mainElement).length
  | _ => false

/-- The warning `init` logs at the `return` of check number `k` (lines 138, 150, 162, 173,
185, 193). -/
def warningOf (k : Nat) : String :=
  match k with
  | 1 => SingleTabLoader.ERROR.ERROR_MESSAGE ++ "Main Element not found."
  | 2 => SingleTabLoader.ERROR.ERROR_MESSAGE ++ "Tab bar element not Found."
  | 3 => SingleTabLoader.ERROR.ERROR_MESSAGE ++ "Hidden content element not Found."
  | 4 => SingleTabLoader.ERROR.ERROR_MESSAGE ++ " List of buttons is empty."
  | 5 => SingleTabLoader.ERROR.ERROR_MESSAGE ++ " List of content is empty."
  | 6 => SingleTabLoader.ERROR.ERROR_MESSAGE ++ "Missing elements in buttons or content list"
  | _ => ""

/-- Runs the click responders of the given receivers one after the other. -/
def runResponders (receivers : List TabButton) (w : World) : Except String World :=
  receivers.foldlM (fun w receiver => receiver._isActive w) w

/-- The nodes of a sequence that carry the given marker token. -/
def activeIn (w : World) (nodes : List Node) (token : String) : List Node :=
  nodes.filter (fun n => DOMTokenList.contains (w.classList n) token)

/-! ## Sample pages -/

/-- A page without any `.tab-element`: every query comes back empty. -/
def emptyDocument : Document :=
  { querySelectorAll := fun _ => [],
    elementQuerySelector := fun _ _ => none,
    elementQuerySelectorAll := fun _ _ => [] }

/-- A page with three containers.  Container 0 has bar 1 with buttons 10, 11, 12
and wrapper 2 with panels 20, 21, 22.  Container 100 has bar 101 with the single
button 110 and wrapper 102 without panels.  Container 200 has bar 201 with
buttons 210, 211 and wrapper 202 with panels 220, 221. -/
def sampleDocument : Document :=
  { querySelectorAll := fun selector =>
      if selector = ".tab-element" then [0, 100, 200] else [],
    elementQuerySelector := fun node selector =>
      if selector = ".tab-button-bar" then
        (if node = 0 then some 1 else if node = 100 then some 101
          else if node = 200 then some 201 else none)
      else if selector = ".tab-hidden-content" then
        (if node = 0 then some 2 else if node = 100 then some 102
          else if node = 200 then some 202 else none)
      else none,
    elementQuerySelectorAll := fun node selector =>
      if selector = ".tab-button" then
        (if node = 1 then [10, 11, 12] else if node = 101 then [110]
          else if node = 201 then [210, 211] else [])
      else if selector = ".tab-content" then
        (if node = 2 then [20, 21, 22] else if node = 202 then [220, 221] else [])
      else [] }

/-- A page state for `sampleDocument` as the markup may deliver it: every node
carries the class its role is matched by, and buttons 10 and 11 and panel 20
already carry their active marker; no listener, empty console. -/
def markedWorld : World :=
  { classList := fun node =>
      if node = 0 ∨ node = 100 ∨ node = 200 then ["tab-element"]
      else if node = 1 ∨ node = 101 ∨ node = 201 then ["tab-button-bar"]
      else if node = 2 ∨ node = 102 ∨ node = 202 then ["tab-hidden-content"]
      else if node = 10 ∨ node = 11 then ["tab-button", "tab-button--active"]
      else if node = 12 ∨ node = 110 ∨ node = 210 ∨ node = 211 then ["tab-button"]
      else if node = 20 then ["tab-content", "tab-content--active"]
      else if node = 21 ∨ node = 22 ∨ node = 220 ∨ node = 221 then ["tab-content"]
      else [],
    listeners := [], console := [] }

/-- The loader state `init` builds for container 0 of `sampleDocument`. -/
def sampleLoader : SingleTabLoader :=
  { _mainTabElement := some 0, _tabBar := some 1, _parentHiddenContent := some 2,
    _tabButtonList := [10, 11, 12], _tabContentList := [20, 21, 22] }

end TabScript

namespace TabScript

/-! ## Class-token lemmas -/

theorem DOMTokenList.contains_iff (tokens : List String) (token : String) :
    DOMTokenList.contains tokens token = true ↔ token ∈ tokens := by
  simp [DOMTokenList.contains]

theorem DOMTokenList.mem_remove (tokens : List String) (token t : String) :
    t ∈ DOMTokenList.remove tokens token ↔ t ∈ tokens ∧ t ≠ token := by
  simp [DOMTokenList.remove]

theorem DOMTokenList.mem_add (tokens : List String) (token t : String) :
    t ∈ DOMTokenList.add tokens token ↔ t ∈ tokens ∨ t = token := by
  unfold DOMTokenList.add
  split
  · rename_i h
    constructor
    · exact Or.inl
    · rintro (h1 | rfl)
      · exact h1
      · simpa using h
  · simp

theorem DOMTokenList.remove_remove (tokens : List String) (token : String) :
    DOMTokenList.remove (DOMTokenList.remove tokens token) token
      = DOMTokenList.remove tokens token := by
  simp [DOMTokenList.remove, List.filter_filter]

theorem resetList_listeners (items : List Node) (token : String) (w : World) :
    (TabButton.resetList items token w).listeners = w.listeners := by
  unfold TabButton.resetList
  induction items generalizing w with
  | nil => rfl
  | cons a as ih =>
    simp only [List.foldl_cons]
    rw [ih]
    split <;> rfl

theorem resetList_console (items : List Node) (token : String) (w : World) :
    (TabButton.resetList items token w).console = w.console := by
  unfold TabButton.resetList
  induction items generalizing w with
  | nil => rfl
  | cons a as ih =>
    simp only [List.foldl_cons]
    rw [ih]
    split <;> rfl

theorem remove_of_not_contains (tokens : List String) (token : String)
    (h : DOMTokenList.contains tokens token = false) :
    DOMTokenList.remove tokens token = tokens := by
  simp only [DOMTokenList.contains, List.contains_eq_any_beq, List.any_eq_false, beq_iff_eq] at h
  simp only [DOMTokenList.remove, List.filter_eq_self, bne_iff_ne, ne_eq]
  intro a ha hEq
  exact h a ha hEq.symm

/-- The tokens of a node after one reset pass: the token is removed on the
nodes of the list and nothing changes elsewhere. -/
theorem resetList_classList (items : List Node) (token : String) (w : World) (n : Node) :
    (TabButton.resetList items token w).classList n
      = if n ∈ items then DOMTokenList.remove (w.classList n) token else w.classList n := by
  unfold TabButton.resetList
  induction items generalizing w with
  | nil => simp
  | cons a as ih =>
    simp only [List.foldl_cons]
    rw [ih]
    by_cases hc : DOMTokenList.contains (w.classList a) token = true
    · simp only [hc, if_true, World.classListRemove, World.setClassList, List.mem_cons]
      by_cases hna : n = a
      · subst hna
        simp [DOMTokenList.remove_remove]
      · simp [hna]
    · have hc2 : DOMTokenList.contains (w.classList a) token = false := by simpa using hc
      simp only [hc2, List.mem_cons]
      by_cases hna : n = a
      · subst hna
        simp [remove_of_not_contains _ _ hc2]
      · simp [hna]

/-! ## The click responder in closed form -/

theorem isActive_eq (tb : TabButton) (b c : Node) (w : World)
    (hb : tb._button = some b) (hc : tb._content = some c) :
    tb._isActive w = .ok
      { classList := fun n => tokensAfter tb._buttonList tb._contentList b c n (w.classList n),
        listeners := w.listeners, console := w.console } := by
  unfold TabButton._isActive
  simp only [hb, hc]
  congr 1
  ext1
  · funext n
    simp only [World.classListAdd, World.setClassList, TabButton._reset, resetList_classList,
      tokensAfter]
    by_cases h1 : n = c <;> by_cases h2 : n = b <;> by_cases h3 : c = b <;>
      simp_all
  · simp [World.classListAdd, World.setClassList, TabButton._reset, resetList_listeners]
  · simp [World.classListAdd, World.setClassList, TabButton._reset, resetList_console]

theorem mem_tokensAfter (buttons panels : List Node) (b c n : Node) (tokens : List String)
    (t : String) :
    t ∈ tokensAfter buttons panels b c n tokens ↔
      (t = TabButton.CLASS.BUTTON_ACTIVE ∧ n = b) ∨
      (t = TabButton.CLASS.CONTENT_ACTIVE ∧ n = c) ∨
      (t ∈ tokens ∧ ¬ (t = TabButton.CLASS.BUTTON_ACTIVE ∧ n ∈ buttons) ∧
        ¬ (t = TabButton.CLASS.CONTENT_ACTIVE ∧ n ∈ panels)) := by
  have hne : TabButton.CLASS.BUTTON_ACTIVE ≠ TabButton.CLASS.CONTENT_ACTIVE := by decide
  unfold tokensAfter
  dsimp only
  split_ifs <;> (try simp only [DOMTokenList.mem_add, DOMTokenList.mem_remove]) <;> tauto

/-! ## Binding creation in closed form -/

theorem loadedListeners_succ (buttons panels : List Node) (m : Nat) (b : Node)
    (hb : buttons[m]? = some b) :
    loadedListeners buttons panels (m + 1)
      = loadedListeners buttons panels m ++ [(b, bindingAt buttons panels m)] := by
  simp [loadedListeners, List.range_succ, List.filterMap_append, hb]

theorem loadedListeners_getElem (buttons panels : List Node) (m : Nat)
    (hm : m ≤ buttons.length) :
    (loadedListeners buttons panels m).length = m ∧
      ∀ i b, i < m → buttons[i]? = some b →
        (loadedListeners buttons panels m)[i]? = some (b, bindingAt buttons panels i) := by
  induction m with
  | zero => simp [loadedListeners]
  | succ m ih =>
    have hlt : m < buttons.length := hm
    obtain ⟨hlen, hget⟩ := ih (Nat.le_of_lt hlt)
    have hbm : buttons[m]? = some buttons[m] := List.getElem?_eq_getElem hlt
    rw [loadedListeners_succ buttons panels m _ hbm]
    refine ⟨by simp [hlen], ?_⟩
    intro i b hi hb
    by_cases him : i < m
    · rw [List.getElem?_append_left (by omega)]
      exact hget i b him hb
    · have hEq : i = m := by omega
      subst hEq
      rw [List.getElem?_append_right (by omega)]
      rw [hbm] at hb
      cases hb
      simp [hlen]

theorem mem_loadedListeners (buttons panels : List Node) (m : Nat) (e : Node × TabButton) :
    e ∈ loadedListeners buttons panels m ↔
      ∃ i, i < m ∧ buttons[i]? = some e.1 ∧ e.2 = bindingAt buttons panels i := by
  unfold loadedListeners
  simp only [List.mem_filterMap, List.mem_range, Option.map_eq_some']
  constructor
  · rintro ⟨i, hi, b, hb, rfl⟩
    exact ⟨i, hi, hb, rfl⟩
  · rintro ⟨i, hi, hb, he⟩
    exact ⟨i, hi, e.1, hb, by rw [← he]⟩

theorem foldlM_init_range (buttons panels : List Node) (m : Nat) (hm : m ≤ buttons.length)
    (w : World) :
    (List.range m).foldlM
        (fun w i => TabButton.init buttons[i]? panels[i]? panels buttons w) w
      = .ok { classList := w.classList,
              listeners := w.listeners ++ loadedListeners buttons panels m,
              console := w.console } := by
  induction m with
  | zero => simp [loadedListeners, pure, Except.pure]
  | succ m ih =>
    have hlt : m < buttons.length := hm
    have hbm : buttons[m]? = some buttons[m] := List.getElem?_eq_getElem hlt
    rw [List.range_succ, List.foldlM_append, ih (Nat.le_of_lt hlt),
      loadedListeners_succ buttons panels m _ hbm]
    simp [bind, Except.bind, pure, Except.pure, TabButton.init, TabButton._addEventListener,
      World.addEventListener, hbm, bindingAt]

theorem loadTabButton_eq (self : SingleTabLoader) (w : World) :
    SingleTabLoader._loadTabButton self w
      = .ok { classList := w.classList,
              listeners := w.listeners ++
                loadedListeners self._tabButtonList self._tabContentList
                  self._tabButtonList.length,
              console := w.console } :=
  foldlM_init_range self._tabButtonList self._tabContentList _ (Nat.le_refl _) w

/-! ## `SingleTabLoader.init` in closed form -/

theorem init_shape (doc : Document) (c : Option Node) :
    ∃ (L : List (Node × TabButton)) (M : List String), ∀ w : World,
      SingleTabLoader.init doc c w
        = .ok { classList := w.classList, listeners := w.listeners ++ L,
                console := w.console ++ M } := by
  cases c with
  | none =>
    exact ⟨[], [_], fun w => by simp [SingleTabLoader.init, World.warn]; rfl⟩
  | some main =>
    cases h1 : doc.elementQuerySelector main SingleTabLoader.CLASS.TAB_BAR_ELEMENT with
    | none =>
      exact ⟨[], [_], fun w => by simp [SingleTabLoader.init, World.warn, h1]; rfl⟩
    | some tabBar =>
      cases h2 : doc.elementQuerySelector main SingleTabLoader.CLASS.PARENT_HIDEN_CONTENT with
      | none =>
        exact ⟨[], [_], fun w => by simp [SingleTabLoader.init, World.warn, h1, h2]; rfl⟩
      | some hidden =>
        by_cases h3 : (doc.elementQuerySelectorAll tabBar
            SingleTabLoader.CLASS.TAB_BUTTON).length = 0
        · exact ⟨[], [_], fun w => by
            simp [SingleTabLoader.init, World.warn, h1, h2, h3]; rfl⟩
        · by_cases h4 : (doc.elementQuerySelectorAll hidden
              SingleTabLoader.CLASS.HIDDEN_CONTENT).length = 0
          · exact ⟨[], [_], fun w => by
              simp [SingleTabLoader.init, World.warn, h1, h2, h3, h4]; rfl⟩
          · by_cases h5 : (doc.elementQuerySelectorAll tabBar
                SingleTabLoader.CLASS.TAB_BUTTON).length
                = (doc.elementQuerySelectorAll hidden
                  SingleTabLoader.CLASS.HIDDEN_CONTENT).length
            · refine ⟨loadedListeners
                (doc.elementQuerySelectorAll tabBar SingleTabLoader.CLASS.TAB_BUTTON)
                (doc.elementQuerySelectorAll hidden SingleTabLoader.CLASS.HIDDEN_CONTENT)
                (doc.elementQuerySelectorAll tabBar SingleTabLoader.CLASS.TAB_BUTTON).length,
                [], fun w => ?_⟩
              simp only [SingleTabLoader.init, h1, h2, h3, h4, h5, beq_iff_eq, bne_iff_ne,
                ne_eq, not_true_eq_false, if_false, List.append_nil]
              rw [← h5]
              exact loadTabButton_eq _ w
            · exact ⟨[], [_], fun w => by
                simp [SingleTabLoader.init, World.warn, h1, h2, h3, h4, h5]; rfl⟩

/-- `SingleTabLoader.init` always returns normally; it appends its bindings to
the listener table and its warnings to the console and changes nothing else. -/
theorem init_total (doc : Document) (c : Option Node) (w : World) :
    SingleTabLoader.init doc c w
      = .ok { classList := w.classList,
              listeners := w.listeners ++ SingleTabLoader.bindings doc c,
              console := w.console ++ SingleTabLoader.warnings doc c } := by
  obtain ⟨L, M, h⟩ := init_shape doc c
  have hL : SingleTabLoader.bindings doc c = L := by
    unfold SingleTabLoader.bindings
    rw [h World.blank]
    simp [World.blank]
  have hM : SingleTabLoader.warnings doc c = M := by
    unfold SingleTabLoader.warnings
    rw [h World.blank]
    simp [World.blank]
  rw [hL, hM]
  exact h w

/-! ## The ordered checks -/

theorem checkFails_range (doc : Document) (c : Option Node) (k : Nat)
    (hk : checkFails doc c k = true) : 1 ≤ k ∧ k ≤ 6 := by
  rcases k with _ | _ | _ | _ | _ | _ | _ | k <;> simp_all [checkFails]

/-- On the first failing check, `init` logs that check's warning and returns. -/
theorem init_first_failure (doc : Document) (c : Option Node) (w : World) (k : Nat)
    (hk : checkFails doc c k = true) (hlow : ∀ j, j < k → checkFails doc c j = false) :
    SingleTabLoader.init doc c w = .ok (w.warn (warningOf k)) := by
  have hr := checkFails_range doc c k hk
  have l1 := hlow 1
  have l2 := hlow 2
  have l3 := hlow 3
  have l4 := hlow 4
  have l5 := hlow 5
  clear hlow
  cases c with
  | none =>
    rcases k with _ | _ | _ | _ | _ | _ | _ | k <;>
      simp_all [checkFails, warningOf, SingleTabLoader.init]
  | some main =>
    cases h1 : doc.elementQuerySelector main SingleTabLoader.CLASS.TAB_BAR_ELEMENT with
    | none =>
      rcases k with _ | _ | _ | _ | _ | _ | _ | k <;>
        simp_all [checkFails, warningOf, SingleTabLoader.init]
    | some tabBar =>
      cases h2 : doc.elementQuerySelector main SingleTabLoader.CLASS.PARENT_HIDEN_CONTENT with
      | none =>
        rcases k with _ | _ | _ | _ | _ | _ | _ | k <;>
          simp_all [checkFails, warningOf, SingleTabLoader.init]
      | some hidden =>
        rcases k with _ | _ | _ | _ | _ | _ | _ | k <;>
          simp_all [checkFails, warningOf, SingleTabLoader.init, candidateButtons,
            candidatePanels, groupButtons, groupPanels]

/-- When no check fails, `init` goes on to `_loadTabButton`, which registers one
listener per button and logs nothing. -/
theorem init_all_pass (doc : Document) (c : Option Node) (w : World)
    (hpass : ∀ k, checkFails doc c k = false) :
    SingleTabLoader.init doc c w
      = .ok { classList := w.classList,
              listeners := w.listeners ++
                loadedListeners (candidateButtons doc c) (candidatePanels doc c)
                  (candidateButtons doc c).length,
              console := w.console } := by
  have p1 := hpass 1
  have p2 := hpass 2
  have p3 := hpass 3
  have p4 := hpass 4
  have p5 := hpass 5
  have p6 := hpass 6
  clear hpass
  cases c with
  | none => simp [checkFails] at p1
  | some main =>
    cases h1 : doc.elementQuerySelector main SingleTabLoader.CLASS.TAB_BAR_ELEMENT with
    | none => simp [checkFails, h1] at p2
    | some tabBar =>
      cases h2 : doc.elementQuerySelector main SingleTabLoader.CLASS.PARENT_HIDEN_CONTENT with
      | none => simp [checkFails, h2] at p3
      | some hidden =>
        simp only [checkFails, candidateButtons, candidatePanels, groupButtons, groupPanels,
          h1, h2, List.isEmpty_eq_false, bne_eq_false_iff_eq] at p4 p5 p6
        have e4 : ¬ (doc.elementQuerySelectorAll tabBar
            SingleTabLoader.CLASS.TAB_BUTTON).length = 0 := by
          simpa [List.length_eq_zero] using p4
        have e5 : ¬ (doc.elementQuerySelectorAll hidden
            SingleTabLoader.CLASS.HIDDEN_CONTENT).length = 0 := by
          simpa [List.length_eq_zero] using p5
        simp only [SingleTabLoader.init, h1, h2, candidateButtons, candidatePanels,
          groupButtons, groupPanels, beq_iff_eq, e4, e5, if_false, bne_iff_ne, ne_eq, p6,
          not_true_eq_false]
        rw [← p6]
        exact loadTabButton_eq _ w

/-! ## A second click absorbs the first -/

theorem remove_add_same (l : List String) (t : String) :
    DOMTokenList.remove (DOMTokenList.add l t) t = DOMTokenList.remove l t := by
  unfold DOMTokenList.add DOMTokenList.remove
  split
  · rfl
  · simp [List.filter_append]

theorem remove_add_other (l : List String) (t u : String) (h : u ≠ t) :
    DOMTokenList.remove (DOMTokenList.add l u) t
      = DOMTokenList.add (DOMTokenList.remove l t) u := by
  unfold DOMTokenList.add DOMTokenList.remove
  have hc : (List.filter (fun x => x != t) l).contains u = l.contains u := by
    rw [Bool.eq_iff_iff]
    simp [List.mem_filter, h]
  rw [hc]
  split
  · rfl
  · simp [List.filter_append, h]

theorem remove_comm (l : List String) (t u : String) :
    DOMTokenList.remove (DOMTokenList.remove l u) t
      = DOMTokenList.remove (DOMTokenList.remove l t) u := by
  simp only [DOMTokenList.remove, List.filter_filter]
  congr 1
  funext x
  exact Bool.and_comm _ _

theorem remove_alt (l : List String) (t u : String) :
    DOMTokenList.remove (DOMTokenList.remove (DOMTokenList.remove l t) u) t
      = DOMTokenList.remove (DOMTokenList.remove l t) u := by
  rw [remove_comm, DOMTokenList.remove_remove]

theorem tokensAfter_absorb (buttons panels : List Node) (bi pi bj pj n : Node)
    (l : List String) (hbi : bi ∈ buttons) (hpi : pi ∈ panels) :
    tokensAfter buttons panels bj pj n (tokensAfter buttons panels bi pi n l)
      = tokensAfter buttons panels bj pj n l := by
  have hne : TabButton.CLASS.BUTTON_ACTIVE ≠ TabButton.CLASS.CONTENT_ACTIVE := by decide
  have hne2 : TabButton.CLASS.CONTENT_ACTIVE ≠ TabButton.CLASS.BUTTON_ACTIVE := by decide
  have key : (if n ∈ panels then DOMTokenList.remove
        (if n ∈ buttons then DOMTokenList.remove (tokensAfter buttons panels bi pi n l)
          TabButton.CLASS.BUTTON_ACTIVE else tokensAfter buttons panels bi pi n l)
        TabButton.CLASS.CONTENT_ACTIVE
      else (if n ∈ buttons then DOMTokenList.remove (tokensAfter buttons panels bi pi n l)
          TabButton.CLASS.BUTTON_ACTIVE else tokensAfter buttons panels bi pi n l))
      = (if n ∈ panels then DOMTokenList.remove
        (if n ∈ buttons then DOMTokenList.remove l TabButton.CLASS.BUTTON_ACTIVE else l)
        TabButton.CLASS.CONTENT_ACTIVE
      else (if n ∈ buttons then DOMTokenList.remove l TabButton.CLASS.BUTTON_ACTIVE else l)) := by
    unfold tokensAfter
    dsimp only
    have m1 : n = bi → n ∈ buttons := fun h => h ▸ hbi
    have m2 : n = pi → n ∈ panels := fun h => h ▸ hpi
    split_ifs <;>
      first
      | rfl
      | (exfalso; tauto)
      | simp only [remove_add_same, remove_add_other _ _ _ hne, remove_add_other _ _ _ hne2,
          DOMTokenList.remove_remove, remove_alt]
  unfold tokensAfter at key ⊢
  dsimp only at key ⊢
  rw [key]

/-! ## Shared facts about groups -/

theorem index_unique_of_nodup (l : List Node) (hl : l.Nodup) (i j : Nat) (a : Node)
    (hi : l[i]? = some a) (hj : l[j]? = some a) : i = j := by
  obtain ⟨hi1, hi2⟩ := List.getElem?_eq_some.mp hi
  obtain ⟨hj1, hj2⟩ := List.getElem?_eq_some.mp hj
  exact (hl.getElem_inj_iff).mp (hi2.trans hj2.symm)

theorem mem_of_getElem?_some (l : List Node) (i : Nat) (a : Node) (h : l[i]? = some a) :
    a ∈ l :=
  List.mem_iff_getElem?.mpr ⟨i, h⟩

/-- The responder of the receiver built at index `k`, in closed form. -/
theorem responder_at (buttons panels : List Node) (k : Nat) (bk pk : Node)
    (hbk : buttons[k]? = some bk) (hpk : panels[k]? = some pk) (w : World) :
    (bindingAt buttons panels k)._isActive w = .ok
      { classList := fun n => tokensAfter buttons panels bk pk n (w.classList n),
        listeners := w.listeners, console := w.console } :=
  isActive_eq (bindingAt buttons panels k) bk pk w hbk hpk

/-- After the responder of index `k` ran, a button carries the button marker
exactly when it is button `k`, and likewise for panels. -/
theorem markers_after_responder (buttons panels : List Node) (hb : buttons.Nodup)
    (hp : panels.Nodup) (k : Nat) (bk pk : Node)
    (hbk : buttons[k]? = some bk) (hpk : panels[k]? = some pk) (tokens : Node → List String)
    (i : Nat) (b p : Node) (hbi : buttons[i]? = some b) (hpi : panels[i]? = some p) :
    (TabButton.CLASS.CONTENT_ACTIVE ∈ tokensAfter buttons panels bk pk p (tokens p) ↔ i = k) ∧
    (TabButton.CLASS.BUTTON_ACTIVE ∈ tokensAfter buttons panels bk pk b (tokens b) ↔ i = k) := by
  have hne : TabButton.CLASS.BUTTON_ACTIVE ≠ TabButton.CLASS.CONTENT_ACTIVE := by decide
  have hbm : b ∈ buttons := mem_of_getElem?_some _ _ _ hbi
  have hpm : p ∈ panels := mem_of_getElem?_some _ _ _ hpi
  constructor
  · rw [mem_tokensAfter]
    constructor
    · rintro (⟨h, _⟩ | ⟨_, h⟩ | ⟨_, _, h⟩)
      · exact absurd h.symm hne
      · subst h
        exact index_unique_of_nodup panels hp i k p hpi hpk
      · exact absurd ⟨rfl, hpm⟩ h
    · intro h
      subst h
      rw [hpi] at hpk
      cases hpk
      exact Or.inr (Or.inl ⟨rfl, rfl⟩)
  · rw [mem_tokensAfter]
    constructor
    · rintro (⟨_, h⟩ | ⟨h, _⟩ | ⟨_, h, _⟩)
      · subst h
        exact index_unique_of_nodup buttons hb i k b hbi hbk
      · exact absurd h hne
      · exact absurd ⟨rfl, hbm⟩ h
    · intro h
      subst h
      rw [hbi] at hbk
      cases hbk
      exact Or.inl ⟨rfl, rfl⟩

/-- When some check fails there is a lowest failing one, and `init` logs its warning. -/
theorem first_failure_exists (doc : Document) (c : Option Node)
    (h : ∃ k, checkFails doc c k = true) :
    ∃ k, checkFails doc c k = true ∧ (∀ j, j < k → checkFails doc c j = false) ∧
      ∀ w, SingleTabLoader.init doc c w = .ok (w.warn (warningOf k)) := by
  classical
  refine ⟨Nat.find h, Nat.find_spec h, ?_, ?_⟩
  · intro j hj
    simpa using Nat.find_min h hj
  · intro w
    exact init_first_failure doc c w _ (Nat.find_spec h)
      (fun j hj => by simpa using Nat.find_min h hj)

theorem bindings_of_failure (doc : Document) (c : Option Node)
    (h : ∃ k, checkFails doc c k = true) : SingleTabLoader.bindings doc c = [] := by
  obtain ⟨k, _, _, hinit⟩ := first_failure_exists doc c h
  unfold SingleTabLoader.bindings
  rw [hinit World.blank]
  rfl

theorem bindings_of_pass (doc : Document) (c : Option Node)
    (hpass : ∀ k, checkFails doc c k = false) :
    SingleTabLoader.bindings doc c
      = loadedListeners (candidateButtons doc c) (candidatePanels doc c)
          (candidateButtons doc c).length := by
  unfold SingleTabLoader.bindings
  rw [init_all_pass doc c World.blank hpass]
  simp [World.blank]

theorem pass_lengths (doc : Document) (c : Option Node)
    (hpass : ∀ k, checkFails doc c k = false) :
    (candidatePanels doc c).length = (candidateButtons doc c).length ∧
      0 < (candidateButtons doc c).length := by
  have p4 := hpass 4
  have p6 := hpass 6
  simp only [checkFails, bne_eq_false_iff_eq, List.isEmpty_eq_false] at p4 p6
  refine ⟨p6.symm, ?_⟩
  cases hcb : candidateButtons doc c with
  | nil => simp [hcb] at p4
  | cons a as => simp

/-- Every binding `init` creates for a container is the receiver of some index
of the container's button and panel sequences. -/
theorem bindings_shape (doc : Document) (c : Option Node) (e : Node × TabButton)
    (he : e ∈ SingleTabLoader.bindings doc c) :
    ∃ i p, (candidateButtons doc c)[i]? = some e.1 ∧ (candidatePanels doc c)[i]? = some p ∧
      e.2 = bindingAt (candidateButtons doc c) (candidatePanels doc c) i := by
  by_cases h : ∃ k, checkFails doc c k = true
  · rw [bindings_of_failure doc c h] at he
    cases he
  · have hpass : ∀ k, checkFails doc c k = false := by
      intro k
      by_contra hk
      exact h ⟨k, by simpa using hk⟩
    rw [bindings_of_pass doc c hpass, mem_loadedListeners] at he
    obtain ⟨i, hi, hb, hs⟩ := he
    have hlen := (pass_lengths doc c hpass).1
    have hip : i < (candidatePanels doc c).length := by omega
    exact ⟨i, (candidatePanels doc c)[i], hb, List.getElem?_eq_getElem hip, hs⟩

/-- The loop of `_loadSingleTabLoader` in closed form: every container is
processed, in order, and contributes its own bindings and warnings. -/
theorem loadSingle_fold (doc : Document) (containers : List Node) (w : World) :
    containers.foldlM (fun w item => SingleTabLoader.init doc (some item) w) w
      = .ok { classList := w.classList,
              listeners := w.listeners ++
                containers.flatMap (fun item => SingleTabLoader.bindings doc (some item)),
              console := w.console ++
                containers.flatMap (fun item => SingleTabLoader.warnings doc (some item)) } := by
  induction containers generalizing w with
  | nil => simp [pure, Except.pure]
  | cons a as ih =>
    rw [List.foldlM_cons, init_total doc (some a) w]
    simp only [bind, Except.bind]
    rw [ih]
    simp [List.flatMap_cons, List.append_assoc]

theorem tokensAfter_outside (buttons panels : List Node) (b c n : Node) (tokens : List String)
    (h1 : n ∉ buttons) (h2 : n ∉ panels) (h3 : n ≠ b) (h4 : n ≠ c) :
    tokensAfter buttons panels b c n tokens = tokens := by
  simp [tokensAfter, h1, h2, h3, h4]

theorem length_le_one_of_all_eq (l : List Node) (hl : l.Nodup)
    (h : ∀ a, a ∈ l → ∀ b, b ∈ l → a = b) : l.length ≤ 1 := by
  match l, hl, h with
  | [], _, _ => simp
  | [_], _, _ => simp
  | a :: b :: t, hl, h =>
    have hab : a = b := h a (by simp) b (by simp)
    subst hab
    simp at hl

/-- After the responder of index `k` ran, at most one button and at most one
panel of the group carry their marker. -/
theorem at_most_one_after_responder (buttons panels : List Node) (hb : buttons.Nodup)
    (hp : panels.Nodup) (bk pk : Node) (w : World) :
    (activeIn
        { classList := fun n => tokensAfter buttons panels bk pk n (w.classList n),
          listeners := w.listeners, console := w.console }
        buttons TabButton.CLASS.BUTTON_ACTIVE).length ≤ 1 ∧
    (activeIn
        { classList := fun n => tokensAfter buttons panels bk pk n (w.classList n),
          listeners := w.listeners, console := w.console }
        panels TabButton.CLASS.CONTENT_ACTIVE).length ≤ 1 := by
  have hne : TabButton.CLASS.BUTTON_ACTIVE ≠ TabButton.CLASS.CONTENT_ACTIVE := by decide
  constructor
  · apply length_le_one_of_all_eq _ (hb.filter _)
    have key : ∀ a, a ∈ activeIn
        { classList := fun n => tokensAfter buttons panels bk pk n (w.classList n),
          listeners := w.listeners, console := w.console }
        buttons TabButton.CLASS.BUTTON_ACTIVE → a = bk := by
      intro a ha
      simp only [activeIn, List.mem_filter, DOMTokenList.contains_iff, mem_tokensAfter] at ha
      obtain ⟨ham, h⟩ := ha
      rcases h with ⟨_, h⟩ | ⟨h, _⟩ | ⟨_, h, _⟩
      · exact h
      · exact absurd h hne
      · exact absurd ⟨trivial, ham⟩ h
    intro a ha b hb2
    rw [key a ha, key b hb2]
  · apply length_le_one_of_all_eq _ (hp.filter _)
    have key : ∀ a, a ∈ activeIn
        { classList := fun n => tokensAfter buttons panels bk pk n (w.classList n),
          listeners := w.listeners, console := w.console }
        panels TabButton.CLASS.CONTENT_ACTIVE → a = pk := by
      intro a ha
      simp only [activeIn, List.mem_filter, DOMTokenList.contains_iff, mem_tokensAfter] at ha
      obtain ⟨ham, h⟩ := ha
      rcases h with ⟨h, _⟩ | ⟨_, h⟩ | ⟨_, _, h⟩
      · exact absurd h.symm hne
      · exact h
      · exact absurd ⟨trivial, ham⟩ h
    intro a ha b hb2
    rw [key a ha, key b hb2]

/-- Any sequence of responders of the group's receivers keeps the bound. -/
theorem run_responders_keeps_bound (buttons panels : List Node) (hb : buttons.Nodup)
    (hp : panels.Nodup) (receivers : List TabButton)
    (hall : ∀ r, r ∈ receivers → ∃ i bi pi, buttons[i]? = some bi ∧ panels[i]? = some pi ∧
      r = bindingAt buttons panels i)
    (w : World)
    (hinv : (activeIn w buttons TabButton.CLASS.BUTTON_ACTIVE).length ≤ 1 ∧
      (activeIn w panels TabButton.CLASS.CONTENT_ACTIVE).length ≤ 1) :
    ∃ w', runResponders receivers w = .ok w' ∧
      (activeIn w' buttons TabButton.CLASS.BUTTON_ACTIVE).length ≤ 1 ∧
      (activeIn w' panels TabButton.CLASS.CONTENT_ACTIVE).length ≤ 1 := by
  induction receivers generalizing w with
  | nil => exact ⟨w, rfl, hinv⟩
  | cons r rest ih =>
    obtain ⟨i, bi, pi, hbi, hpi, hr⟩ := hall r (by simp)
    have hstep := responder_at buttons panels i bi pi hbi hpi w
    obtain ⟨w', hrun, hb1⟩ := ih (fun r2 hr2 => hall r2 (by simp [hr2])) _
      (at_most_one_after_responder buttons panels hb hp bi pi w)
    refine ⟨w', ?_, hb1⟩
    simp only [runResponders, List.foldlM_cons, hr, hstep, bind, Except.bind]
    exact hrun

/-- Any sequence of responders of the group's receivers returns normally, and
it ends with at most one marked button and panel when the sequence is non-empty
or the starting state already met the bound. -/
theorem run_responders_bound (buttons panels : List Node) (hb : buttons.Nodup)
    (hp : panels.Nodup) (receivers : List TabButton)
    (hall : ∀ r, r ∈ receivers → ∃ i bi pi, buttons[i]? = some bi ∧ panels[i]? = some pi ∧
      r = bindingAt buttons panels i)
    (w : World) :
    ∃ w', runResponders receivers w = .ok w' ∧
      ((receivers ≠ [] ∨
          ((activeIn w buttons TabButton.CLASS.BUTTON_ACTIVE).length ≤ 1 ∧
           (activeIn w panels TabButton.CLASS.CONTENT_ACTIVE).length ≤ 1)) →
        ((activeIn w' buttons TabButton.CLASS.BUTTON_ACTIVE).length ≤ 1 ∧
         (activeIn w' panels TabButton.CLASS.CONTENT_ACTIVE).length ≤ 1)) := by
  cases receivers with
  | nil =>
    refine ⟨w, rfl, ?_⟩
    rintro (h | h)
    · exact absurd rfl h
    · exact h
  | cons r rest =>
    obtain ⟨i, bi, pi, hbi, hpi, hr⟩ := hall r (by simp)
    have hstep := responder_at buttons panels i bi pi hbi hpi w
    obtain ⟨w', hrun, hbound⟩ := run_responders_keeps_bound buttons panels hb hp rest
      (fun r2 hr2 => hall r2 (by simp [hr2])) _
      (at_most_one_after_responder buttons panels hb hp bi pi w)
    refine ⟨w', ?_, fun _ => hbound⟩
    simp only [runResponders, List.foldlM_cons, hr, hstep, bind, Except.bind]
    exact hrun

/-! ## Verified properties -/

/-- C1: for a group of pairwise-distinct buttons and as many pairwise-distinct
panels bound by `_loadTabButton`, and any index `k` and prior page state, running
the click responder of the `k`-th binding succeeds and afterwards panel `i`
carries `tab-content--active` exactly when `i = k` and button `i` carries
`tab-button--active` exactly when `i = k`. -/
theorem click_marks_exactly_the_clicked_pair (self : SingleTabLoader) (w0 w : World) (k : Nat)
    (hlen : self._tabContentList.length = self._tabButtonList.length)
    (hb : self._tabButtonList.Nodup) (hp : self._tabContentList.Nodup)
    (hk : k < self._tabButtonList.length) :
    ∃ w1 target receiver w',
      SingleTabLoader._loadTabButton self w0 = .ok w1 ∧
      (w1.listeners.drop w0.listeners.length)[k]? = some (target, receiver) ∧
      receiver._isActive w = .ok w' ∧
      ∀ i b p, self._tabButtonList[i]? = some b → self._tabContentList[i]? = some p →
        ((TabButton.CLASS.CONTENT_ACTIVE ∈ w'.classList p ↔ i = k) ∧
         (TabButton.CLASS.BUTTON_ACTIVE ∈ w'.classList b ↔ i = k)) := by
  have hkp : k < self._tabContentList.length := by omega
  have hbk : self._tabButtonList[k]? = some self._tabButtonList[k] :=
    List.getElem?_eq_getElem hk
  have hpk : self._tabContentList[k]? = some self._tabContentList[k] :=
    List.getElem?_eq_getElem hkp
  refine ⟨_, self._tabButtonList[k], bindingAt self._tabButtonList self._tabContentList k, _,
    loadTabButton_eq self w0, ?_, responder_at _ _ k _ _ hbk hpk w, ?_⟩
  · simp only [List.drop_left]
    exact (loadedListeners_getElem _ _ _ (Nat.le_refl _)).2 k _ hk hbk
  · intro i b p hbi hpi
    exact markers_after_responder _ _ hb hp k _ _ hbk hpk w.classList i b p hbi hpi

/-- Witness for C1: the three-tab sample group, clicking index 1 on a page whose
markup had other markers set. -/
theorem click_marks_exactly_the_clicked_pair_witness :
    (1 < sampleLoader._tabButtonList.length) ∧
    ∃ w1 target receiver w',
      SingleTabLoader._loadTabButton sampleLoader markedWorld = .ok w1 ∧
      (w1.listeners.drop markedWorld.listeners.length)[1]? = some (target, receiver) ∧
      receiver._isActive markedWorld = .ok w' ∧
      ∀ i b p, sampleLoader._tabButtonList[i]? = some b →
        sampleLoader._tabContentList[i]? = some p →
        ((TabButton.CLASS.CONTENT_ACTIVE ∈ w'.classList p ↔ i = 1) ∧
         (TabButton.CLASS.BUTTON_ACTIVE ∈ w'.classList b ↔ i = 1)) :=
  ⟨by decide,
    click_marks_exactly_the_clicked_pair sampleLoader markedWorld markedWorld 1
      (by decide) (by decide) (by decide) (by decide)⟩

/-- C2, as the code behaves: when no node matches `.tab-element`, constructing
the loader and calling `init` returns normally and leaves the page state exactly
as it was; in particular the console receives no warning, because the emptiness
test at line 43 is a truthiness test on a `NodeList` object. -/
theorem loadScript_without_container_logs_nothing (doc : Document) (w : World)
    (h : doc.querySelectorAll TabLoader.CLASS.MAIN_TAB_ELEMENT = []) :
    loadScript doc w = .ok w := by
  simp [loadScript, TabLoader.init, TabLoader.new, NodeList.toBoolean,
    TabLoader._loadSingleTabLoader, h, pure, Except.pure]

/-- Witness for C2: the empty page; its console stays empty. -/
theorem loadScript_without_container_logs_nothing_witness :
    emptyDocument.querySelectorAll TabLoader.CLASS.MAIN_TAB_ELEMENT = [] ∧
    loadScript emptyDocument World.blank = .ok World.blank :=
  ⟨rfl, loadScript_without_container_logs_nothing emptyDocument World.blank rfl⟩

/-- C3: for a container whose bar yields no button, or whose hidden-content
wrapper yields no panel, or whose button and panel counts differ, `init` returns
normally having only logged one warning: the listener table and the class tokens
of every node are as before, and the container has no binding. -/
theorem malformed_group_gets_no_binding (doc : Document) (main : Node) (w : World)
    (h : groupButtons doc main = [] ∨ groupPanels doc main = [] ∨
      (groupButtons doc main).length ≠ (groupPanels doc main).length) :
    ∃ message w',
      SingleTabLoader.init doc (some main) w = .ok w' ∧
      w' = w.warn message ∧
      w'.listeners = w.listeners ∧
      w'.classList = w.classList ∧
      SingleTabLoader.bindings doc (some main) = [] := by
  have hfail : ∃ k, checkFails doc (some main) k = true := by
    rcases h with h | h | h
    · exact ⟨4, by simp [checkFails, candidateButtons, h]⟩
    · exact ⟨5, by simp [checkFails, candidatePanels, h]⟩
    · exact ⟨6, by simp [checkFails, candidateButtons, candidatePanels, h]⟩
  obtain ⟨k, _, _, hinit⟩ := first_failure_exists doc (some main) hfail
  exact ⟨warningOf k, w.warn (warningOf k), hinit w, rfl, rfl, rfl,
    bindings_of_failure doc (some main) hfail⟩

/-- Witness for C3: container 100 of the sample page has one button and no panel. -/
theorem malformed_group_gets_no_binding_witness :
    groupPanels sampleDocument 100 = [] ∧
    ∃ message w',
      SingleTabLoader.init sampleDocument (some 100) markedWorld = .ok w' ∧
      w' = markedWorld.warn message ∧
      w'.listeners = markedWorld.listeners ∧
      w'.classList = markedWorld.classList ∧
      SingleTabLoader.bindings sampleDocument (some 100) = [] :=
  ⟨by decide,
    malformed_group_gets_no_binding sampleDocument 100 markedWorld (Or.inr (Or.inl (by decide)))⟩

/-- C7: for a container that passes every check, with `N` buttons and `N`
panels, `init` returns normally and appends exactly `N` listener entries to the
table; entry `i` targets button `i` and its receiver holds button `i` as own
button, panel `i` as own panel, the full panel sequence as content list and the
full button sequence as button list.  Every new entry targets the own button of
its receiver, so no responder is registered on any other node. -/
theorem init_binds_each_pair (doc : Document) (main : Node) (w : World)
    (hpass : ∀ k, checkFails doc (some main) k = false) :
    ∃ w' created,
      SingleTabLoader.init doc (some main) w = .ok w' ∧
      w'.listeners = w.listeners ++ created ∧
      (groupPanels doc main).length = (groupButtons doc main).length ∧
      created.length = (groupButtons doc main).length ∧
      (∀ i, i < (groupButtons doc main).length →
        ∃ b p, (groupButtons doc main)[i]? = some b ∧ (groupPanels doc main)[i]? = some p ∧
          created[i]? = some (b,
            { _button := some b, _content := some p,
              _buttonList := groupButtons doc main, _contentList := groupPanels doc main })) ∧
      (∀ e, e ∈ created → e.2._button = some e.1) := by
  have hlen := pass_lengths doc (some main) hpass
  have hget := loadedListeners_getElem (groupButtons doc main) (groupPanels doc main)
    (groupButtons doc main).length (Nat.le_refl _)
  refine ⟨_, _, init_all_pass doc (some main) w hpass, rfl, hlen.1, hget.1, ?_, ?_⟩
  · intro i hi
    have hip : i < (groupPanels doc main).length := by
      have := hlen.1
      simp only [candidatePanels, candidateButtons] at this
      omega
    have hbi : (groupButtons doc main)[i]? = some (groupButtons doc main)[i] :=
      List.getElem?_eq_getElem hi
    have hpi : (groupPanels doc main)[i]? = some (groupPanels doc main)[i] :=
      List.getElem?_eq_getElem hip
    refine ⟨_, _, hbi, hpi, ?_⟩
    have h := hget.2 i _ hi hbi
    simp only [candidateButtons, candidatePanels]
    rw [h]
    simp [bindingAt, hbi, hpi]
  · intro e he
    simp only [candidateButtons, candidatePanels] at he
    obtain ⟨i, _, hb, hs⟩ := (mem_loadedListeners _ _ _ e).mp he
    rw [hs]
    exact hb

/-- Witness for C7: container 200 of the sample page, two buttons and two panels. -/
theorem init_binds_each_pair_witness :
    (∀ k, checkFails sampleDocument (some 200) k = false) ∧
    ∃ w' created,
      SingleTabLoader.init sampleDocument (some 200) markedWorld = .ok w' ∧
      w'.listeners = markedWorld.listeners ++ created ∧
      (groupPanels sampleDocument 200).length = (groupButtons sampleDocument 200).length ∧
      created.length = (groupButtons sampleDocument 200).length ∧
      (∀ i, i < (groupButtons sampleDocument 200).length →
        ∃ b p, (groupButtons sampleDocument 200)[i]? = some b ∧
          (groupPanels sampleDocument 200)[i]? = some p ∧
          created[i]? = some (b,
            { _button := some b, _content := some p,
              _buttonList := groupButtons sampleDocument 200,
              _contentList := groupPanels sampleDocument 200 })) ∧
      (∀ e, e ∈ created → e.2._button = some e.1) :=
  have hpass : ∀ k, checkFails sampleDocument (some 200) k = false := by
    intro k
    rcases k with _ | _ | _ | _ | _ | _ | _ | k <;> rfl
  ⟨hpass, init_binds_each_pair sampleDocument 200 markedWorld hpass⟩

/-- C8: `init` applies the six checks in their numbered order and stops at the
first failure.  If check `k` fails and no lower-numbered check fails, `init`
returns normally with exactly the warning of check `k` appended to the console
and with the listener table and class tokens untouched.  If no check fails,
`init` is the run of `_loadTabButton` on the two sequences: it logs nothing and
registers one listener per button. -/
theorem init_checks_in_order (doc : Document) (c : Option Node) (w : World) :
    (∀ k, checkFails doc c k = true → (∀ j, j < k → checkFails doc c j = false) →
      SingleTabLoader.init doc c w = .ok (w.warn (warningOf k)) ∧
      (w.warn (warningOf k)).console = w.console ++ [warningOf k] ∧
      (w.warn (warningOf k)).listeners = w.listeners ∧
      (w.warn (warningOf k)).classList = w.classList ∧
      SingleTabLoader.bindings doc c = []) ∧
    ((∀ k, checkFails doc c k = false) →
      ∃ main tabBar parentHiddenContent w',
        c = some main ∧
        SingleTabLoader.init doc c w
          = SingleTabLoader._loadTabButton
              { _mainTabElement := some main, _tabBar := some tabBar,
                _parentHiddenContent := some parentHiddenContent,
                _tabButtonList := groupButtons doc main,
                _tabContentList := groupPanels doc main } w ∧
        SingleTabLoader.init doc c w = .ok w' ∧
        w'.console = w.console ∧
        w'.listeners = w.listeners ++ SingleTabLoader.bindings doc c ∧
        (SingleTabLoader.bindings doc c).length = (groupButtons doc main).length ∧
        0 < (groupButtons doc main).length) := by
  constructor
  · intro k hk hlow
    exact ⟨init_first_failure doc c w k hk hlow, rfl, rfl, rfl,
      bindings_of_failure doc c ⟨k, hk⟩⟩
  · intro hpass
    have hlen := pass_lengths doc c hpass
    have hget := loadedListeners_getElem (candidateButtons doc c) (candidatePanels doc c)
      (candidateButtons doc c).length (Nat.le_refl _)
    have hinit := init_all_pass doc c w hpass
    have p1 := hpass 1
    have p2 := hpass 2
    have p3 := hpass 3
    cases c with
    | none => simp [checkFails] at p1
    | some main =>
      cases h1 : doc.elementQuerySelector main SingleTabLoader.CLASS.TAB_BAR_ELEMENT with
      | none => simp [checkFails, h1] at p2
      | some tabBar =>
        cases h2 : doc.elementQuerySelector main
            SingleTabLoader.CLASS.PARENT_HIDEN_CONTENT with
        | none => simp [checkFails, h2] at p3
        | some hidden =>
          refine ⟨main, tabBar, hidden, _, rfl, ?_, hinit, rfl, ?_, ?_, hlen.2⟩
          · rw [hinit, loadTabButton_eq]
            rfl
          · rw [bindings_of_pass doc (some main) hpass]
          · rw [bindings_of_pass doc (some main) hpass]
            exact hget.1

/-- Witness for C8: on container 100 of the sample page checks 1 to 4 pass and
check 5 (at least one panel) fails, so the warning of check 5 is logged. -/
theorem init_checks_in_order_witness :
    checkFails sampleDocument (some 100) 5 = true ∧
    (∀ j, j < 5 → checkFails sampleDocument (some 100) j = false) ∧
    SingleTabLoader.init sampleDocument (some 100) markedWorld
      = .ok (markedWorld.warn "Tab class was not initialised correctly. List of content is empty.") ∧
    SingleTabLoader.bindings sampleDocument (some 100) = [] :=
  have hlow : ∀ j, j < 5 → checkFails sampleDocument (some 100) j = false := by
    intro j hj
    rcases j with _ | _ | _ | _ | _ | j
    · rfl
    · decide
    · decide
    · decide
    · decide
    · omega
  have h := (init_checks_in_order sampleDocument (some 100) markedWorld).1 5 (by decide) hlow
  ⟨by decide, hlow, h.1, h.2.2.2.2⟩

/-- C9: `TabLoader.init` on the containers the constructor found returns
normally for every page, and the listener entries it adds are the concatenation,
in document order, of the entries `SingleTabLoader.init` creates for each
container on its own.  A container failing some check contributes none, and a
container passing all checks contributes one entry per button, wherever it
stands in the list. -/
theorem tabLoader_init_concatenates_groups (doc : Document) (w : World) :
    ∃ w',
      TabLoader.init doc (TabLoader.new doc) w = .ok w' ∧
      w'.listeners = w.listeners ++
        (doc.querySelectorAll TabLoader.CLASS.MAIN_TAB_ELEMENT).flatMap
          (fun item => SingleTabLoader.bindings doc (some item)) ∧
      (∀ item, item ∈ doc.querySelectorAll TabLoader.CLASS.MAIN_TAB_ELEMENT →
        ((∃ k, checkFails doc (some item) k = true) →
          SingleTabLoader.bindings doc (some item) = []) ∧
        ((∀ k, checkFails doc (some item) k = false) →
          (SingleTabLoader.bindings doc (some item)).length
            = (groupButtons doc item).length ∧
          0 < (groupButtons doc item).length ∧
          ∀ entry, entry ∈ SingleTabLoader.bindings doc (some item) →
            entry ∈ w'.listeners)) := by
  refine ⟨{ classList := w.classList,
             listeners := w.listeners ++
               (doc.querySelectorAll TabLoader.CLASS.MAIN_TAB_ELEMENT).flatMap
                 (fun item => SingleTabLoader.bindings doc (some item)),
             console := w.console ++
               (doc.querySelectorAll TabLoader.CLASS.MAIN_TAB_ELEMENT).flatMap
                 (fun item => SingleTabLoader.warnings doc (some item)) }, ?_, rfl, ?_⟩
  · simp only [TabLoader.init, NodeList.toBoolean, Bool.not_true, Bool.false_eq_true,
      if_false, TabLoader._loadSingleTabLoader, TabLoader.new]
    exact loadSingle_fold doc _ w
  · intro item hitem
    refine ⟨bindings_of_failure doc (some item), ?_⟩
    intro hpass
    have hlen := pass_lengths doc (some item) hpass
    have hget := loadedListeners_getElem (groupButtons doc item) (groupPanels doc item)
      (groupButtons doc item).length (Nat.le_refl _)
    refine ⟨?_, hlen.2, ?_⟩
    · rw [bindings_of_pass doc (some item) hpass]
      exact hget.1
    · intro entry hentry
      simp only [List.mem_append, List.mem_flatMap]
      exact Or.inr ⟨item, hitem, hentry⟩

/-- Witness for C9: on the sample page the malformed container 100 stands
between two well-formed ones; all five pairs of containers 0 and 200 are bound. -/
theorem tabLoader_init_concatenates_groups_witness :
    ∃ w',
      TabLoader.init sampleDocument (TabLoader.new sampleDocument) markedWorld = .ok w' ∧
      w'.listeners.map Prod.fst = [10, 11, 12, 210, 211] := by
  obtain ⟨w', h1, h2, _⟩ := tabLoader_init_concatenates_groups sampleDocument markedWorld
  refine ⟨w', h1, ?_⟩
  rw [h2]
  decide

/-- C10: class tokens change only in a click responder, and only the two
markers.  `TabLoader.init`, `SingleTabLoader.init` and `TabButton.init` return
with the class tokens of every node as they were.  A run of `_isActive` leaves
the listener table and the console alone, and for every node and token the
membership is as before unless the token is `tab-button--active` and the node is
in the receiver's button list or is its own button, or the token is
`tab-content--active` and the node is in the receiver's content list or is its
own panel. -/
theorem only_responders_change_markers (doc : Document) (w : World) :
    (∀ self : TabLoader, ∃ w', TabLoader.init doc self w = .ok w' ∧
      w'.classList = w.classList) ∧
    (∀ c : Option Node, ∃ w', SingleTabLoader.init doc c w = .ok w' ∧
      w'.classList = w.classList) ∧
    (∀ (b : Node) (content : Option Node) (contentList buttonList : List Node),
      ∃ w', TabButton.init (some b) content contentList buttonList w = .ok w' ∧
        w'.classList = w.classList) ∧
    (∀ (receiver : TabButton) (b c : Node),
      receiver._button = some b → receiver._content = some c →
      ∃ w', receiver._isActive w = .ok w' ∧
        w'.listeners = w.listeners ∧ w'.console = w.console ∧
        ∀ (n : Node) (t : String),
          ¬ (t = TabButton.CLASS.BUTTON_ACTIVE ∧ (n ∈ receiver._buttonList ∨ n = b)) →
          ¬ (t = TabButton.CLASS.CONTENT_ACTIVE ∧ (n ∈ receiver._contentList ∨ n = c)) →
          (t ∈ w'.classList n ↔ t ∈ w.classList n)) := by
  refine ⟨?_, ?_, ?_, ?_⟩
  · intro self
    refine ⟨{ classList := w.classList,
               listeners := w.listeners ++ self._mainTabElement.flatMap
                 (fun item => SingleTabLoader.bindings doc (some item)),
               console := w.console ++ self._mainTabElement.flatMap
                 (fun item => SingleTabLoader.warnings doc (some item)) }, ?_, rfl⟩
    simp only [TabLoader.init, NodeList.toBoolean, Bool.not_true, Bool.false_eq_true,
      if_false, TabLoader._loadSingleTabLoader]
    exact loadSingle_fold doc _ w
  · intro c
    exact ⟨{ classList := w.classList,
              listeners := w.listeners ++ SingleTabLoader.bindings doc c,
              console := w.console ++ SingleTabLoader.warnings doc c },
      init_total doc c w, rfl⟩
  · intro b content contentList buttonList
    exact ⟨_, rfl, rfl⟩
  · intro receiver b c hb hc
    refine ⟨_, isActive_eq receiver b c w hb hc, rfl, rfl, ?_⟩
    intro n t h1 h2
    simp only [mem_tokensAfter]
    tauto

/-- Witness for C10: the receiver of tab 0 of the sample group, run on the
marked page, keeps the plain `tab-button` class of button 11 and removes its
marker. -/
theorem only_responders_change_markers_witness :
    ∃ w', (bindingAt [10, 11, 12] [20, 21, 22] 0)._isActive markedWorld = .ok w' ∧
      ("tab-button" ∈ w'.classList 11 ↔ "tab-button" ∈ markedWorld.classList 11) ∧
      "tab-button" ∈ markedWorld.classList 11 := by
  obtain ⟨w', h1, _, _, h4⟩ :=
    (only_responders_change_markers emptyDocument markedWorld).2.2.2
      (bindingAt [10, 11, 12] [20, 21, 22] 0) 10 20 rfl rfl
  exact ⟨w', h1, h4 11 "tab-button" (by decide) (by decide), by decide⟩

/-- C5: when the buttons and panels of container `a` are disjoint from those of
container `b`, the click responder of any binding of `a`, run on any page state,
returns normally and leaves the class tokens of every button and panel of `b`
as they were. -/
theorem click_in_group_leaves_other_group (doc : Document) (a b : Node) (w : World)
    (hdisj : ∀ n, (n ∈ groupButtons doc a ∨ n ∈ groupPanels doc a) →
      ¬ (n ∈ groupButtons doc b ∨ n ∈ groupPanels doc b))
    (entry : Node × TabButton) (hentry : entry ∈ SingleTabLoader.bindings doc (some a)) :
    ∃ w', entry.2._isActive w = .ok w' ∧
      ∀ n, (n ∈ groupButtons doc b ∨ n ∈ groupPanels doc b) →
        w'.classList n = w.classList n := by
  obtain ⟨i, p, hb, hp, hs⟩ := bindings_shape doc (some a) entry hentry
  simp only [candidateButtons, candidatePanels] at hb hp hs
  rw [hs]
  refine ⟨_, responder_at _ _ i _ _ hb hp w, ?_⟩
  intro n hn
  have hbm := mem_of_getElem?_some _ _ _ hb
  have hpm := mem_of_getElem?_some _ _ _ hp
  apply tokensAfter_outside
  · intro h
    exact hdisj n (Or.inl h) hn
  · intro h
    exact hdisj n (Or.inr h) hn
  · intro h
    exact hdisj n (Or.inl (h ▸ hbm)) hn
  · intro h
    exact hdisj n (Or.inr (h ▸ hpm)) hn

/-- Witness for C5: containers 0 and 200 of the sample page; the responder bound
to button 11 of container 0 leaves the nodes of container 200 alone. -/
theorem click_in_group_leaves_other_group_witness :
    (11, bindingAt [10, 11, 12] [20, 21, 22] 1) ∈ SingleTabLoader.bindings sampleDocument (some 0) ∧
    ∃ w', (bindingAt [10, 11, 12] [20, 21, 22] 1)._isActive markedWorld = .ok w' ∧
      ∀ n, (n ∈ groupButtons sampleDocument 200 ∨ n ∈ groupPanels sampleDocument 200) →
        w'.classList n = markedWorld.classList n :=
  have hdisj : ∀ n, (n ∈ groupButtons sampleDocument 0 ∨ n ∈ groupPanels sampleDocument 0) →
      ¬ (n ∈ groupButtons sampleDocument 200 ∨ n ∈ groupPanels sampleDocument 200) := by
    have e1 : groupButtons sampleDocument 0 = [10, 11, 12] := rfl
    have e2 : groupPanels sampleDocument 0 = [20, 21, 22] := rfl
    have e3 : groupButtons sampleDocument 200 = [210, 211] := rfl
    have e4 : groupPanels sampleDocument 200 = [220, 221] := rfl
    intro n
    rw [e1, e2, e3, e4]
    simp only [List.mem_cons, List.mem_singleton, List.not_mem_nil, or_false]
    intro h1 h2
    rcases h1 with (h | h | h) | (h | h | h) <;> rcases h2 with (g | g) | (g | g) <;>
      exact absurd (h.symm.trans g) (by decide)
  ⟨by decide,
    click_in_group_leaves_other_group sampleDocument 0 200 markedWorld hdisj
      (11, bindingAt [10, 11, 12] [20, 21, 22] 1) (by decide)⟩

/-- C6: in a well-formed group, for all indices `i` and `j` (equal or not) and
every prior page state, running the responder of binding `i` and then the one of
binding `j` yields the very page state that running the responder of binding `j`
alone yields, and in it exactly button `j` and panel `j` carry their markers.
With `i = j` this is idempotence of a click.  If the prior state already has
exactly tab `j` active, the click on `j` leaves the class membership of every
token on every node as it was. -/
theorem second_click_decides_state (self : SingleTabLoader) (w0 w : World) (i j : Nat)
    (hlen : self._tabContentList.length = self._tabButtonList.length)
    (hb : self._tabButtonList.Nodup) (hp : self._tabContentList.Nodup)
    (hi : i < self._tabButtonList.length) (hj : j < self._tabButtonList.length) :
    ∃ w1 ti ri tj rj wi wij wj,
      SingleTabLoader._loadTabButton self w0 = .ok w1 ∧
      (w1.listeners.drop w0.listeners.length)[i]? = some (ti, ri) ∧
      (w1.listeners.drop w0.listeners.length)[j]? = some (tj, rj) ∧
      ri._isActive w = .ok wi ∧ rj._isActive wi = .ok wij ∧ rj._isActive w = .ok wj ∧
      wij = wj ∧
      (∀ m b p, self._tabButtonList[m]? = some b → self._tabContentList[m]? = some p →
        ((TabButton.CLASS.BUTTON_ACTIVE ∈ wij.classList b ↔ m = j) ∧
         (TabButton.CLASS.CONTENT_ACTIVE ∈ wij.classList p ↔ m = j))) ∧
      ((∀ m b p, self._tabButtonList[m]? = some b → self._tabContentList[m]? = some p →
          ((TabButton.CLASS.BUTTON_ACTIVE ∈ w.classList b ↔ m = j) ∧
           (TabButton.CLASS.CONTENT_ACTIVE ∈ w.classList p ↔ m = j))) →
        ∀ (n : Node) (t : String), t ∈ wj.classList n ↔ t ∈ w.classList n) := by
  have hip : i < self._tabContentList.length := by omega
  have hjp : j < self._tabContentList.length := by omega
  have hbi : self._tabButtonList[i]? = some self._tabButtonList[i] :=
    List.getElem?_eq_getElem hi
  have hpi : self._tabContentList[i]? = some self._tabContentList[i] :=
    List.getElem?_eq_getElem hip
  have hbj : self._tabButtonList[j]? = some self._tabButtonList[j] :=
    List.getElem?_eq_getElem hj
  have hpj : self._tabContentList[j]? = some self._tabContentList[j] :=
    List.getElem?_eq_getElem hjp
  have hget := (loadedListeners_getElem self._tabButtonList self._tabContentList _
    (Nat.le_refl _)).2
  refine ⟨_, self._tabButtonList[i], bindingAt self._tabButtonList self._tabContentList i,
    self._tabButtonList[j], bindingAt self._tabButtonList self._tabContentList j, _, _, _,
    loadTabButton_eq self w0, ?_, ?_, responder_at _ _ i _ _ hbi hpi w,
    responder_at _ _ j _ _ hbj hpj _, responder_at _ _ j _ _ hbj hpj w, ?_, ?_, ?_⟩
  · simp only [List.drop_left]
    exact hget i _ hi hbi
  · simp only [List.drop_left]
    exact hget j _ hj hbj
  · congr 1
    funext n
    exact tokensAfter_absorb _ _ _ _ _ _ n _ (mem_of_getElem?_some _ _ _ hbi)
      (mem_of_getElem?_some _ _ _ hpi)
  · intro m b p hbm hpm
    have h := markers_after_responder _ _ hb hp j _ _ hbj hpj
      (fun n => tokensAfter self._tabButtonList self._tabContentList self._tabButtonList[i]
        self._tabContentList[i] n (w.classList n)) m b p hbm hpm
    exact ⟨h.2, h.1⟩
  · intro hact n t
    have hne : TabButton.CLASS.BUTTON_ACTIVE ≠ TabButton.CLASS.CONTENT_ACTIVE := by decide
    have HB : ∀ a, a ∈ self._tabButtonList →
        (TabButton.CLASS.BUTTON_ACTIVE ∈ w.classList a ↔ a = self._tabButtonList[j]) := by
      intro a ha
      obtain ⟨m, hm⟩ := List.mem_iff_getElem?.mp ha
      have hml : m < self._tabButtonList.length := (List.getElem?_eq_some.mp hm).1
      have hmp : self._tabContentList[m]? = some self._tabContentList[m] :=
        List.getElem?_eq_getElem (by omega)
      rw [(hact m a _ hm hmp).1]
      constructor
      · intro h
        subst h
        rw [hbj] at hm
        cases hm
        rfl
      · intro h
        subst h
        exact index_unique_of_nodup _ hb m j _ hm hbj
    have HP : ∀ a, a ∈ self._tabContentList →
        (TabButton.CLASS.CONTENT_ACTIVE ∈ w.classList a ↔ a = self._tabContentList[j]) := by
      intro a ha
      obtain ⟨m, hm⟩ := List.mem_iff_getElem?.mp ha
      have hml : m < self._tabContentList.length := (List.getElem?_eq_some.mp hm).1
      have hmb : self._tabButtonList[m]? = some self._tabButtonList[m] :=
        List.getElem?_eq_getElem (by omega)
      rw [(hact m _ a hmb hm).2]
      constructor
      · intro h
        subst h
        rw [hpj] at hm
        cases hm
        rfl
      · intro h
        subst h
        exact index_unique_of_nodup _ hp m j _ hm hpj
    have hbjm := mem_of_getElem?_some _ _ _ hbj
    have hpjm := mem_of_getElem?_some _ _ _ hpj
    simp only [mem_tokensAfter]
    constructor
    · rintro (⟨h1, h2⟩ | ⟨h1, h2⟩ | ⟨h1, _, _⟩)
      · subst h1 h2
        exact (HB _ hbjm).mpr rfl
      · subst h1 h2
        exact (HP _ hpjm).mpr rfl
      · exact h1
    · intro ht
      by_cases c1 : t = TabButton.CLASS.BUTTON_ACTIVE ∧ n ∈ self._tabButtonList
      · obtain ⟨c1a, c1b⟩ := c1
        subst c1a
        exact Or.inl ⟨rfl, (HB n c1b).mp ht⟩
      · by_cases c2 : t = TabButton.CLASS.CONTENT_ACTIVE ∧ n ∈ self._tabContentList
        · obtain ⟨c2a, c2b⟩ := c2
          subst c2a
          exact Or.inr (Or.inl ⟨rfl, (HP n c2b).mp ht⟩)
        · exact Or.inr (Or.inr ⟨ht, c1, c2⟩)

/-- Witness for C6: the three-tab sample group on the marked page, clicking
index 2 and then index 0. -/
theorem second_click_decides_state_witness :
    (2 < sampleLoader._tabButtonList.length) ∧
    ∃ w1 ti ri tj rj wi wij wj,
      SingleTabLoader._loadTabButton sampleLoader markedWorld = .ok w1 ∧
      (w1.listeners.drop markedWorld.listeners.length)[2]? = some (ti, ri) ∧
      (w1.listeners.drop markedWorld.listeners.length)[0]? = some (tj, rj) ∧
      ri._isActive markedWorld = .ok wi ∧ rj._isActive wi = .ok wij ∧
      rj._isActive markedWorld = .ok wj ∧
      wij = wj ∧
      (∀ m b p, sampleLoader._tabButtonList[m]? = some b →
        sampleLoader._tabContentList[m]? = some p →
        ((TabButton.CLASS.BUTTON_ACTIVE ∈ wij.classList b ↔ m = 0) ∧
         (TabButton.CLASS.CONTENT_ACTIVE ∈ wij.classList p ↔ m = 0))) ∧
      ((∀ m b p, sampleLoader._tabButtonList[m]? = some b →
          sampleLoader._tabContentList[m]? = some p →
          ((TabButton.CLASS.BUTTON_ACTIVE ∈ markedWorld.classList b ↔ m = 0) ∧
           (TabButton.CLASS.CONTENT_ACTIVE ∈ markedWorld.classList p ↔ m = 0))) →
        ∀ (n : Node) (t : String), t ∈ wj.classList n ↔ t ∈ markedWorld.classList n) :=
  ⟨by decide,
    second_click_decides_state sampleLoader markedWorld markedWorld 2 0
      (by decide) (by decide) (by decide) (by decide) (by decide)⟩

/-- C4, counterexample: container 0 of the sample page passes every check and
its buttons and panels are pairwise distinct, yet right after `init`, before any
click, buttons 10 and 11 both carry `tab-button--active` and panel 20 carries
`tab-content--active`, because the markup delivered them and `init` never
touches class tokens. -/
theorem initial_markers_come_from_markup :
    (∀ k, k ≤ 6 → checkFails sampleDocument (some 0) k = false) ∧
    (groupButtons sampleDocument 0).Nodup ∧ (groupPanels sampleDocument 0).Nodup ∧
    ∃ w1, SingleTabLoader.init sampleDocument (some 0) markedWorld = .ok w1 ∧
      activeIn w1 (groupButtons sampleDocument 0) TabButton.CLASS.BUTTON_ACTIVE = [10, 11] ∧
      activeIn w1 (groupPanels sampleDocument 0) TabButton.CLASS.CONTENT_ACTIVE = [20] ∧
      runResponders [] w1 = .ok w1 ∧
      ¬ (activeIn w1 (groupButtons sampleDocument 0) TabButton.CLASS.BUTTON_ACTIVE).length ≤ 1 := by
  refine ⟨by decide, by decide, by decide, _, init_total sampleDocument (some 0) markedWorld,
    by decide, by decide, rfl, by decide⟩

/-- C4, amended: for a container that passes every check, with pairwise-distinct
buttons and panels, initialised by `init` from any page state, the group gets one
responder per button and the state before any click carries exactly the class
tokens, hence exactly the active markers, the page had before `init` (none in the
group when the markup has none).  Every finite sequence of runs of the group's
click responders returns normally, and the state it reaches has at most one
button carrying `tab-button--active` and at most one panel carrying
`tab-content--active` whenever the sequence is non-empty, and also for the empty
sequence whenever the page before `init` already had at most one of each. -/
theorem at_most_one_active_after_clicks (doc : Document) (main : Node) (w0 : World)
    (hpass : ∀ k, checkFails doc (some main) k = false)
    (hb : (groupButtons doc main).Nodup) (hp : (groupPanels doc main).Nodup) :
    ∃ w1, SingleTabLoader.init doc (some main) w0 = .ok w1 ∧
      (SingleTabLoader.bindings doc (some main)).length = (groupButtons doc main).length ∧
      w1.classList = w0.classList ∧
      activeIn w1 (groupButtons doc main) TabButton.CLASS.BUTTON_ACTIVE
        = activeIn w0 (groupButtons doc main) TabButton.CLASS.BUTTON_ACTIVE ∧
      activeIn w1 (groupPanels doc main) TabButton.CLASS.CONTENT_ACTIVE
        = activeIn w0 (groupPanels doc main) TabButton.CLASS.CONTENT_ACTIVE ∧
      ∀ clicks : List (Node × TabButton),
        (∀ e, e ∈ clicks → e ∈ SingleTabLoader.bindings doc (some main)) →
        ∃ w', runResponders (clicks.map Prod.snd) w1 = .ok w' ∧
          ((clicks ≠ [] ∨
              ((activeIn w0 (groupButtons doc main)
                  TabButton.CLASS.BUTTON_ACTIVE).length ≤ 1 ∧
               (activeIn w0 (groupPanels doc main)
                  TabButton.CLASS.CONTENT_ACTIVE).length ≤ 1)) →
            ((activeIn w' (groupButtons doc main)
                TabButton.CLASS.BUTTON_ACTIVE).length ≤ 1 ∧
             (activeIn w' (groupPanels doc main)
                TabButton.CLASS.CONTENT_ACTIVE).length ≤ 1)) := by
  refine ⟨{ classList := w0.classList,
             listeners := w0.listeners ++ SingleTabLoader.bindings doc (some main),
             console := w0.console ++ SingleTabLoader.warnings doc (some main) },
    init_total doc (some main) w0, ?_, rfl, rfl, rfl, ?_⟩
  · rw [bindings_of_pass doc (some main) hpass]
    exact (loadedListeners_getElem (groupButtons doc main) (groupPanels doc main)
      (groupButtons doc main).length (Nat.le_refl _)).1
  intro clicks hclicks
  obtain ⟨w', hrun, hbound⟩ := run_responders_bound (groupButtons doc main)
    (groupPanels doc main) hb hp (clicks.map Prod.snd)
    (fun r hr => by
      obtain ⟨e, he, rfl⟩ := List.mem_map.mp hr
      obtain ⟨i, p, h1, h2, h3⟩ := bindings_shape doc (some main) e (hclicks e he)
      exact ⟨i, e.1, p, h1, h2, h3⟩)
    { classList := w0.classList,
      listeners := w0.listeners ++ SingleTabLoader.bindings doc (some main),
      console := w0.console ++ SingleTabLoader.warnings doc (some main) }
  refine ⟨w', hrun, ?_⟩
  rintro (h | h)
  · exact hbound (Or.inl (by
      intro hnil
      exact h (List.map_eq_nil_iff.mp hnil)))
  · exact hbound (Or.inr h)

/-- Witness for the amended C4: container 0 of the sample page on the marked
page, where the markup delivers two active buttons; after clicking button 11 and
then button 10 at most one button and one panel are active. -/
theorem at_most_one_active_after_clicks_witness :
    ((activeIn markedWorld (groupButtons sampleDocument 0)
        TabButton.CLASS.BUTTON_ACTIVE).length = 2) ∧
    ∃ w1, SingleTabLoader.init sampleDocument (some 0) markedWorld = .ok w1 ∧
      (activeIn w1 (groupButtons sampleDocument 0) TabButton.CLASS.BUTTON_ACTIVE).length = 2 ∧
      ∃ w', runResponders
          [bindingAt [10, 11, 12] [20, 21, 22] 1, bindingAt [10, 11, 12] [20, 21, 22] 0]
          w1 = .ok w' ∧
        (activeIn w' (groupButtons sampleDocument 0) TabButton.CLASS.BUTTON_ACTIVE).length ≤ 1 ∧
        (activeIn w' (groupPanels sampleDocument 0)
          TabButton.CLASS.CONTENT_ACTIVE).length ≤ 1 := by
  have hpass : ∀ k, checkFails sampleDocument (some 0) k = false := by
    intro k
    rcases k with _ | _ | _ | _ | _ | _ | _ | k <;> rfl
  obtain ⟨w1, h1, _, _, h3, _, h5⟩ :=
    at_most_one_active_after_clicks sampleDocument 0 markedWorld hpass
      (by decide) (by decide)
  obtain ⟨w', hrun, hbound⟩ :=
    h5 [(11, bindingAt [10, 11, 12] [20, 21, 22] 1), (10, bindingAt [10, 11, 12] [20, 21, 22] 0)]
      (by decide)
  refine ⟨by decide, w1, h1, ?_, w', hrun, hbound (Or.inl (by decide))⟩
  rw [h3]
  decide

end TabScript
